import Mathlib

/-!
Shallow embedding of the `proj_factors_redux` QGIS plugin
(`misc.py`, `factoring.py`, `proj_factors_redux.py`).

Coordinates and scalar factor values are modelled as exact rationals (`ℚ`);
Python exceptions are modelled by `Option`/`Except` results; the external
QGIS / pyproj engines (coordinate transform, per-point factor computation)
are passed in as oracle function parameters, since they are third-party
code outside this repository.
-/

namespace ProjFactorsRedux

/-- A 2D point (`QgsPointXY` / `QgsPoint`): x is longitude/easting, y is
latitude/northing. -/
structure QgsPointXY where
  x : ℚ
  y : ℚ
deriving DecidableEq

/-- An axis-aligned rectangle (`QgsRectangle`). -/
structure QgsRectangle where
  xMin : ℚ
  yMin : ℚ
  xMax : ℚ
  yMax : ℚ
deriving DecidableEq

/-- `QgsRectangle.width()`. -/
def QgsRectangle.width (r : QgsRectangle) : ℚ := r.xMax - r.xMin

/-- `QgsRectangle.height()`. -/
def QgsRectangle.height (r : QgsRectangle) : ℚ := r.yMax - r.yMin

/-- Models Python's built-in `round` on an exact rational value:
round half to even ("banker's rounding"). -/
def pyRound (q : ℚ) : ℤ :=
  let f : ℤ := ⌊q⌋
  let frac : ℚ := q - f
  if frac < 1/2 then f
  else if frac = 1/2 then (if 2 ∣ f then f else f + 1)
  else f + 1

/-- The body of `frange` in `misc.create_points`:
`i = 0; while start + i * step < stop: yield start + i * step; i += 1`.
`fuel` bounds the number of remaining iterations; `frange` supplies a fuel
value that provably suffices, so the fuelled loop computes exactly the
values the unbounded Python loop yields. -/
def frangeGo (start stop step : ℚ) : ℕ → ℕ → List ℚ
  | 0, _ => []
  | fuel + 1, i =>
    if start + (i : ℚ) * step < stop then
      (start + (i : ℚ) * step) :: frangeGo start stop step fuel (i + 1)
    else []

/-- The number of iterations of the `frange` loop for a positive step. -/
def frangeCount (start stop step : ℚ) : ℕ := (⌈(stop - start) / step⌉).toNat

/-- `frange(start, stop, step)` from `misc.create_points`. For `step ≤ 0`
the Python loop would not terminate (or yield nothing meaningful); the
plugin only ever calls it with a positive step, and we return `[]` in the
degenerate case. -/
def frange (start stop step : ℚ) : List ℚ :=
  if 0 < step then frangeGo start stop step (frangeCount start stop step) 0 else []

/-- The list of grid points built by `misc.create_points`: for `y` from
`yMin + 0.5*step` upward, reversed (top to bottom), and for `x` from
`xMin + 0.5*step` (left to right), the point `(x, y)`. -/
def create_points_list (extent : QgsRectangle) (step_size : ℚ) : List QgsPointXY :=
  ((frange (extent.yMin + step_size * (1/2)) extent.yMax step_size).reverse).flatMap
    (fun y => (frange (extent.xMin + step_size * (1/2)) extent.xMax step_size).map
      (fun x => ⟨x, y⟩))

/-- `misc.create_points`: computes `cols = round(width/step)`,
`rows = round(height/step)`, builds the grid, and asserts
`rows * cols == len(points)`. A failed assertion (Python `AssertionError`)
is modelled as `none`. -/
def create_points (extent : QgsRectangle) (step_size : ℚ) :
    Option (List QgsPointXY × ℤ × ℤ) :=
  let cols := pyRound (extent.width / step_size)
  let rows := pyRound (extent.height / step_size)
  let points := create_points_list extent step_size
  if rows * cols = (points.length : ℤ) then some (points, cols, rows) else none

/-- Number of columns of the grid: the iteration count of the inner `frange`. -/
def grid_cols (extent : QgsRectangle) (step_size : ℚ) : ℕ :=
  frangeCount (extent.xMin + step_size * (1/2)) extent.xMax step_size

/-- Number of rows of the grid: the iteration count of the outer `frange`. -/
def grid_rows (extent : QgsRectangle) (step_size : ℚ) : ℕ :=
  frangeCount (extent.yMin + step_size * (1/2)) extent.yMax step_size

/-- A coordinate reference system, reduced to the two observables the plugin
reads: its authority identifier string and whether it is a geographic
(non-projected) system. -/
structure QgsCoordinateReferenceSystem where
  authid : String
  isGeographic : Bool
deriving DecidableEq

/-- `QgsCoordinateReferenceSystem.fromEpsgId(4326)`: the geographic WGS84
system used as transform target. -/
def gcs_crs : QgsCoordinateReferenceSystem := ⟨"EPSG:4326", true⟩

/-- Python exceptions observable in the embedded pipeline:
`GeographicCrsError` (raised by `create_factors_tif`), `ZeroDivisionError`
(from `i % int(len(points) / 1000)`), `AssertionError`, `AttributeError`
(from `getattr` with an unknown name). -/
inductive PErr where
  | geographicCrs
  | zeroDivision
  | assertionFailed
  | attributeError
deriving DecidableEq

/-- `misc.transform_points`: transform each point with the engine's
coordinate transform `tf` (a parameter, since the transform is QGIS engine
code); a `QgsCsException` (modelled by `Except.error`) is caught per point
and yields `None`. No other exception occurs, so the function is total. -/
def transform_points (tf : QgsPointXY → Except Unit QgsPointXY) :
    List QgsPointXY → List (Option QgsPointXY)
  | [] => []
  | point :: rest =>
    (match tf point with
     | .ok point_gcs => some point_gcs
     | .error _ => none) :: transform_points tf rest

/-- Modelled from the spec: the engine's per-point projection-factor result
(`QgsProjectionFactors` / `pyproj.proj.Factors`), "a fixed named set of ~12
scalar values"; the twelve scalar fields are exact rationals, and `isValid`
models `QgsProjectionFactors.isValid()`. -/
structure QgsProjectionFactors where
  angularDistortion : ℚ
  arealScale : ℚ
  dxDlam : ℚ
  dxDphi : ℚ
  dyDlam : ℚ
  dyDphi : ℚ
  meridianConvergence : ℚ
  meridianParallelAngle : ℚ
  meridionalScale : ℚ
  parallelScale : ℚ
  tissotSemimajor : ℚ
  tissotSemiminor : ℚ
  isValid : Bool
deriving DecidableEq

/-- The per-point body of the loop in `factoring.gather_factors` (lines
102-123): `None` stays `None`, a point outside the open geographic range is
dropped, otherwise the engine's `crs.factors(point)` is kept when valid. -/
def factors_for_point (factorsOf : QgsPointXY → QgsProjectionFactors)
    (pointxy : Option QgsPointXY) : Option QgsProjectionFactors :=
  match pointxy with
  | some p =>
    if -90 < p.y ∧ p.y < 90 ∧ -180 < p.x ∧ p.x < 180 then
      let these_factors := factorsOf p
      if these_factors.isValid then some these_factors else none
    else none
  | none => none

/-- The loop of `factoring.gather_factors`: `d` is `int(len(points) / 1000)`;
every iteration evaluates `i % d`, which raises `ZeroDivisionError` when
`d = 0`, so a nonempty list with `d = 0` fails on the first iteration. -/
def gather_go (factorsOf : QgsPointXY → QgsProjectionFactors) (d : ℕ) :
    List (Option QgsPointXY) → Except PErr (List (Option QgsProjectionFactors))
  | [] => .ok []
  | pointxy :: rest =>
    if d = 0 then .error .zeroDivision
    else
      match gather_go factorsOf d rest with
      | .ok factors => .ok (factors_for_point factorsOf pointxy :: factors)
      | .error e => .error e

/-- `factoring.gather_factors`. `int(len(points) / 1000)` is modelled by
natural division `points.length / 1000`. -/
def gather_factors (factorsOf : QgsPointXY → QgsProjectionFactors)
    (points : List (Option QgsPointXY)) : Except PErr (List (Option QgsProjectionFactors)) :=
  gather_go factorsOf (points.length / 1000) points

/-- The loop of `factoring.gather_factors_pyproj`: same progress-bar modulo,
but no geographic-range or validity check; a non-`None` point is always
mapped through `p.get_factors`. -/
def gather_pyproj_go (get_factors : QgsPointXY → QgsProjectionFactors) (d : ℕ) :
    List (Option QgsPointXY) → Except PErr (List (Option QgsProjectionFactors))
  | [] => .ok []
  | point :: rest =>
    if d = 0 then .error .zeroDivision
    else
      match gather_pyproj_go get_factors d rest with
      | .ok factors => .ok (point.map get_factors :: factors)
      | .error e => .error e

/-- `factoring.gather_factors_pyproj`. -/
def gather_factors_pyproj (get_factors : QgsPointXY → QgsProjectionFactors)
    (points : List (Option QgsPointXY)) : Except PErr (List (Option QgsProjectionFactors)) :=
  gather_pyproj_go get_factors (points.length / 1000) points

/-- A Python float as it occurs in a band: either NaN (`float("nan")`) or an
actual numeric value. -/
inductive PyFloat where
  | nan : PyFloat
  | num (q : ℚ) : PyFloat
deriving DecidableEq

/-- `getattr(single_projection_factors, factor)()` for the QGIS factor
object: the twelve camelCase attribute names of `QgsProjectionFactors`;
any other name raises `AttributeError` (modelled by `none`). -/
def qgis_factor_attr (f : QgsProjectionFactors) : String → Option ℚ
  | "angularDistortion" => some f.angularDistortion
  | "arealScale" => some f.arealScale
  | "dxDlam" => some f.dxDlam
  | "dxDphi" => some f.dxDphi
  | "dyDlam" => some f.dyDlam
  | "dyDphi" => some f.dyDphi
  | "meridianConvergence" => some f.meridianConvergence
  | "meridianParallelAngle" => some f.meridianParallelAngle
  | "meridionalScale" => some f.meridionalScale
  | "parallelScale" => some f.parallelScale
  | "tissotSemimajor" => some f.tissotSemimajor
  | "tissotSemiminor" => some f.tissotSemiminor
  | _ => none

/-- `getattr(single_projection_factors, factor)` for the pyproj factor
object: the twelve snake_case attribute names of `pyproj.proj.Factors`. -/
def pyproj_factor_attr (f : QgsProjectionFactors) : String → Option ℚ
  | "angular_distortion" => some f.angularDistortion
  | "areal_scale" => some f.arealScale
  | "dx_dlam" => some f.dxDlam
  | "dx_dphi" => some f.dxDphi
  | "dy_dlam" => some f.dyDlam
  | "dy_dphi" => some f.dyDphi
  | "meridian_convergence" => some f.meridianConvergence
  | "meridian_parallel_angle" => some f.meridianParallelAngle
  | "meridional_scale" => some f.meridionalScale
  | "parallel_scale" => some f.parallelScale
  | "tissot_semimajor" => some f.tissotSemimajor
  | "tissot_semiminor" => some f.tissotSemiminor
  | _ => none

/-- `factoring.PROJECTION_FACTORS_QGIS`: insertion-ordered dict of factor
attribute name to display name. -/
def PROJECTION_FACTORS_QGIS : List (String × String) :=
  [("angularDistortion", "Angular Distortion"),
   ("arealScale", "Areal Scale"),
   ("dxDlam", "Partial derivative ∂x/∂λ"),
   ("dxDphi", "Partial derivative ∂x/∂ϕ"),
   ("dyDlam", "Partial derivative ∂y/∂λ"),
   ("dyDphi", "Partial derivative ∂y/∂ϕ"),
   ("meridianConvergence", "Meridian Convergence (aka Grid Declination) (in degrees)"),
   ("meridianParallelAngle", "Meridian Parallel Angle (in degrees)"),
   ("meridionalScale", "Meridional Scale"),
   ("parallelScale", "Parallel Scale"),
   ("tissotSemimajor", "Maximum scale factor (Tissot Semimajor)"),
   ("tissotSemiminor", "Minimum scale factor (Tissot Semiminor)")]

/-- `factoring.PROJECTION_FACTORS_PYPROJ`. -/
def PROJECTION_FACTORS_PYPROJ : List (String × String) :=
  [("angular_distortion", "Angular Distortion"),
   ("areal_scale", "Areal Scale"),
   ("dx_dlam", "Partial derivative ∂x/∂λ"),
   ("dx_dphi", "Partial derivative ∂x/∂ϕ"),
   ("dy_dlam", "Partial derivative ∂y/∂λ"),
   ("dy_dphi", "Partial derivative ∂y/∂ϕ"),
   ("meridian_convergence", "Meridian Convergence (aka Grid Declination) (in degrees)"),
   ("meridian_parallel_angle", "Meridian Parallel Angle (in degrees)"),
   ("meridional_scale", "Meridional Scale"),
   ("parallel_scale", "Parallel Scale"),
   ("tissot_semimajor", "Maximum scale factor (Tissot Semimajor)"),
   ("tissot_semiminor", "Minimum scale factor (Tissot Semiminor)")]

/-- The loop of `factoring.extract_factor`: a `None` entry yields
`float("nan")`, otherwise the named attribute is read from the factor
object (pyproj naming when `use_proj`, QGIS naming otherwise). -/
def extract_go (use_proj : Bool) (factor : String) :
    List (Option QgsProjectionFactors) → Except PErr (List PyFloat)
  | [] => .ok []
  | single_projection_factors :: rest =>
    let value : Except PErr PyFloat :=
      match single_projection_factors with
      | none => .ok .nan
      | some f =>
        match (if use_proj then pyproj_factor_attr f factor else qgis_factor_attr f factor) with
        | some q => .ok (.num q)
        | none => .error .attributeError
    match value, extract_go use_proj factor rest with
    | .ok v, .ok values => .ok (v :: values)
    | .error e, _ => .error e
    | .ok _, .error e => .error e

/-- `factoring.extract_factor`. The `use_proj` QgsSettings flag is a
parameter. -/
def extract_factor (use_proj : Bool) (projection_factors : List (Option QgsProjectionFactors))
    (factor : String) : Except PErr (List PyFloat) :=
  extract_go use_proj factor projection_factors

/-- A byte string produced by `struct.pack`: represented by the sequence of
Float64 values it encodes, in order (the IEEE-754 bit-level encoding is
external to the program logic). -/
structure Bytes where
  vals : List PyFloat
deriving DecidableEq

/-- `misc.pack_values` with the default `"d"` (Float64) format: packs the
values, in order, into a byte string. -/
def pack_values (values : List PyFloat) : Bytes := ⟨values⟩

/-- GDAL raster data types used by the plugin (`Qgis.DataType`). -/
inductive GdalDataType where
  | Float32
  | Float64
deriving DecidableEq

/-- One written raster band: the block data handed to
`provider.writeBlock` and the no-data value set afterwards. -/
structure Band where
  data : Bytes
  nodata : PyFloat
deriving DecidableEq

/-- The multi-band raster created by `write_factors_to_tif` via
`QgsRasterFileWriter.createMultiBandRaster`. -/
structure Raster where
  dtype : GdalDataType
  cols : ℤ
  rows : ℤ
  bands : List Band
deriving DecidableEq

/-- The band loop of `factoring.write_factors_to_tif`: for each factor of
the table, extract its values, pack them, assert
`block.width() * block.height() == len(values)`, write the block and set
the band's no-data value to NaN. -/
def write_go (use_pyproj : Bool) (factors : List (Option QgsProjectionFactors))
    (cols rows : ℤ) : List (String × String) → Except PErr (List Band)
  | [] => .ok []
  | (factor, _factor_text) :: rest =>
    match extract_factor use_pyproj factors factor with
    | .error e => .error e
    | .ok values =>
      if cols * rows = (values.length : ℤ) then
        match write_go use_pyproj factors cols rows rest with
        | .ok bands => .ok ({ data := pack_values values, nodata := PyFloat.nan } :: bands)
        | .error e => .error e
      else .error .assertionFailed

/-- `factoring.write_factors_to_tif`: a Float64 multi-band raster with
`nBands = len(projection_factors)` bands, one per table entry in order. -/
def write_factors_to_tif (use_pyproj : Bool) (factors : List (Option QgsProjectionFactors))
    (cols rows : ℤ) : Except PErr Raster :=
  match write_go use_pyproj factors cols rows
      (if use_pyproj then PROJECTION_FACTORS_PYPROJ else PROJECTION_FACTORS_QGIS) with
  | .ok bands => .ok { dtype := .Float64, cols := cols, rows := rows, bands := bands }
  | .error e => .error e

/-- One `VRTRasterBand` element of the VRT built over the written raster;
`description` is the text of its `Description` child element, if any. -/
structure VrtBand where
  description : Option String
deriving DecidableEq

/-- The `zip(projection_factors.values(), root.iter("VRTRasterBand"))` loop
of `factoring.create_vrt_for_factors_tif`: pair names with bands until
either runs out, setting each paired band's `Description`. -/
def assign_band_descriptions : List String → List VrtBand → List VrtBand
  | _, [] => []
  | [], bands => bands
  | factor_name :: names, _band :: bands =>
    ⟨some factor_name⟩ :: assign_band_descriptions names bands

/-- `factoring.create_vrt_for_factors_tif`, applied to the band list of the
VRT that `gdal:buildvirtualraster` produced over the written raster. -/
def create_vrt_for_factors_tif (use_pyproj : Bool) (vrt_bands : List VrtBand) : List VrtBand :=
  assign_band_descriptions
    ((if use_pyproj then PROJECTION_FACTORS_PYPROJ else PROJECTION_FACTORS_QGIS).map Prod.snd)
    vrt_bands

/-- `factoring.create_factors_tif`: rejects `EPSG:4326`, builds the grid,
transforms it to WGS84, gathers factors (QGIS or pyproj path) and writes
the raster. The engine transform `tf` and the two factor engines are oracle
parameters. -/
def create_factors_tif (use_pyproj : Bool)
    (tf : QgsPointXY → Except Unit QgsPointXY)
    (factorsOf : QgsPointXY → QgsProjectionFactors)
    (get_factors : QgsPointXY → QgsProjectionFactors)
    (extent : QgsRectangle) (crs : QgsCoordinateReferenceSystem) (pixel_size : ℚ) :
    Except PErr Raster :=
  if crs.authid = "EPSG:4326" then .error .geographicCrs
  else
    match create_points extent pixel_size with
    | none => .error .assertionFailed
    | some (points, cols, rows) =>
      let points_gcs : List (Option QgsPointXY) :=
        if crs ≠ gcs_crs then transform_points tf points else points.map some
      match (if use_pyproj then gather_factors_pyproj get_factors points_gcs
             else gather_factors factorsOf points_gcs) with
      | .error e => .error e
      | .ok factors => write_factors_to_tif use_pyproj factors cols rows

instance {ε α : Type} [DecidableEq ε] [DecidableEq α] : DecidableEq (Except ε α) := fun a b =>
  match a, b with
  | .error e, .error f =>
    if h : e = f then isTrue (congrArg Except.error h)
    else isFalse (fun hh => h (Except.error.inj hh))
  | .ok x, .ok y =>
    if h : x = y then isTrue (congrArg Except.ok h)
    else isFalse (fun hh => h (Except.ok.inj hh))
  | .error _, .ok _ => isFalse (fun hh => Except.noConfusion hh)
  | .ok _, .error _ => isFalse (fun hh => Except.noConfusion hh)

/-- Outcome of `ProjFactorsRedux.run`: either the early return that pushes
the critical "CRS must be projected" message, or the rest of the pipeline. -/
inductive RunOutcome where
  | rejectedNotProjected
  | completed (result : Except PErr Raster)
deriving DecidableEq

/-- `ProjFactorsRedux.run`, with the canvas state (extent, destination CRS,
pixel size) and the engine oracles as parameters. -/
def run (use_pyproj : Bool)
    (tf : QgsPointXY → Except Unit QgsPointXY)
    (factorsOf : QgsPointXY → QgsProjectionFactors)
    (get_factors : QgsPointXY → QgsProjectionFactors)
    (extent : QgsRectangle) (crs : QgsCoordinateReferenceSystem) (pixel_size : ℚ) :
    RunOutcome :=
  if crs.authid = "EPSG:4326" then .rejectedNotProjected
  else .completed (create_factors_tif use_pyproj tf factorsOf get_factors extent crs pixel_size)

/-! ### Loop analysis of `frange` -/

theorem flatMap_congr_mem {α β : Type} (l : List α) (f g : α → List β)
    (h : ∀ a ∈ l, f a = g a) : l.flatMap f = l.flatMap g := by
  induction l with
  | nil => rfl
  | cons a l ih =>
    simp only [List.flatMap_cons]
    rw [h a (by simp), ih (fun x hx => h x (by simp [hx]))]

theorem reverse_map_range {α : Type} (n : ℕ) (f : ℕ → α) :
    ((List.range n).map f).reverse = (List.range n).map (fun i => f (n - 1 - i)) := by
  apply List.ext_getElem
  · simp
  · intro i h1 h2
    simp only [List.length_reverse, List.length_map, List.length_range] at h1 h2
    simp only [List.getElem_reverse, List.getElem_map, List.getElem_range,
      List.length_map, List.length_range]

theorem frange_cond_iff {start stop step : ℚ} (hstep : 0 < step) (i : ℕ) :
    start + (i : ℚ) * step < stop ↔ i < frangeCount start stop step := by
  rw [frangeCount, Int.lt_toNat, Int.lt_ceil]
  push_cast
  rw [lt_div_iff₀ hstep]
  constructor <;> intro h <;> linarith

theorem frangeGo_eq {start stop step : ℚ} (hstep : 0 < step) :
    ∀ (fuel i : ℕ), frangeCount start stop step ≤ i + fuel →
      frangeGo start stop step fuel i =
        (List.range (frangeCount start stop step - i)).map
          (fun j => start + ((i + j : ℕ) : ℚ) * step) := by
  intro fuel
  induction fuel with
  | zero =>
    intro i h
    have : frangeCount start stop step - i = 0 := by omega
    simp [frangeGo, this]
  | succ fuel ih =>
    intro i h
    rw [frangeGo]
    by_cases hc : start + (i : ℚ) * step < stop
    · have hi : i < frangeCount start stop step := (frange_cond_iff hstep i).mp hc
      rw [if_pos hc, ih (i + 1) (by omega)]
      have hsub : frangeCount start stop step - i = (frangeCount start stop step - (i + 1)) + 1 := by
        omega
      rw [hsub, List.range_succ_eq_map, List.map_cons, List.map_map]
      refine congrArg₂ List.cons ?_ ?_
      · push_cast
        ring
      · apply List.map_congr_left
        intro j _
        simp only [Function.comp_apply]
        push_cast
        ring
    · have hi : ¬ i < frangeCount start stop step := fun h' => hc ((frange_cond_iff hstep i).mpr h')
      have : frangeCount start stop step - i = 0 := by omega
      rw [if_neg hc, this]
      simp

theorem frange_eq {start stop step : ℚ} (hstep : 0 < step) :
    frange start stop step =
      (List.range (frangeCount start stop step)).map (fun j : ℕ => start + (j : ℚ) * step) := by
  rw [frange, if_pos hstep, frangeGo_eq hstep _ 0 (by omega), Nat.sub_zero]
  apply List.map_congr_left
  intro j _
  push_cast
  ring

theorem frange_length {start stop step : ℚ} (hstep : 0 < step) :
    (frange start stop step).length = frangeCount start stop step := by
  rw [frange_eq hstep, List.length_map, List.length_range]

/-- Evaluation helper: the iteration count of the `frange` loop, established
from explicit rational bounds. -/
theorem frangeCount_eq_of_bounds (start stop step : ℚ) (n : ℕ)
    (h1 : (n : ℚ) - 1 < (stop - start) / step) (h2 : (stop - start) / step ≤ (n : ℚ)) :
    frangeCount start stop step = n := by
  have hceil : ⌈(stop - start) / step⌉ = (n : ℤ) := by
    rw [Int.ceil_eq_iff]
    refine ⟨by push_cast; linarith, by push_cast; linarith⟩
  simp [frangeCount, hceil]

/-! ### `pyRound` versus the loop count -/

/-- Python's `round(q)` agrees with `⌈q - 1/2⌉` (the exact count of grid steps)
except when the fractional part of `q` is exactly `1/2` and `⌊q⌋` is odd. -/
theorem pyRound_eq_ceil {q : ℚ} (h : ¬(q - ⌊q⌋ = 1/2 ∧ Odd ⌊q⌋)) :
    pyRound q = ⌈q - 1/2⌉ := by
  have hfl : (⌊q⌋ : ℚ) ≤ q := Int.floor_le q
  have hfu : q < ⌊q⌋ + 1 := Int.lt_floor_add_one q
  rw [pyRound]
  by_cases h1 : q - (⌊q⌋ : ℚ) < 1/2
  · rw [if_pos h1]
    symm
    rw [Int.ceil_eq_iff]
    constructor <;> linarith
  · rw [if_neg h1]
    by_cases h2 : q - (⌊q⌋ : ℚ) = 1/2
    · rw [if_pos h2]
      have hodd : ¬ Odd ⌊q⌋ := fun ho => h ⟨h2, ho⟩
      have heven : 2 ∣ ⌊q⌋ := by
        rcases Int.even_or_odd ⌊q⌋ with he | ho
        · exact he.two_dvd
        · exact absurd ho hodd
      rw [if_pos heven]
      symm
      rw [Int.ceil_eq_iff]
      constructor <;> linarith
    · rw [if_neg h2]
      have h3 : 1/2 < q - (⌊q⌋ : ℚ) := lt_of_le_of_ne (not_lt.mp h1) (fun e => h2 e.symm)
      symm
      rw [Int.ceil_eq_iff]
      push_cast
      constructor <;> linarith

/-! ### The grid built by `create_points` -/

theorem grid_cols_eq_ceil (e : QgsRectangle) {S : ℚ} (hS : 0 < S) :
    grid_cols e S = (⌈e.width / S - 1/2⌉).toNat := by
  have : (e.xMax - (e.xMin + S * (1/2))) / S = e.width / S - 1/2 := by
    rw [QgsRectangle.width]
    field_simp
    ring
  rw [grid_cols, frangeCount, this]

theorem grid_rows_eq_ceil (e : QgsRectangle) {S : ℚ} (hS : 0 < S) :
    grid_rows e S = (⌈e.height / S - 1/2⌉).toNat := by
  have : (e.yMax - (e.yMin + S * (1/2))) / S = e.height / S - 1/2 := by
    rw [QgsRectangle.height]
    field_simp
    ring
  rw [grid_rows, frangeCount, this]

theorem create_points_list_eq (e : QgsRectangle) {S : ℚ} (hS : 0 < S) :
    create_points_list e S =
      (List.range (grid_rows e S)).flatMap (fun r =>
        (List.range (grid_cols e S)).map (fun c : ℕ =>
          ⟨e.xMin + S * (1/2) + (c : ℚ) * S,
           e.yMin + S * (1/2) + ((grid_rows e S - 1 - r : ℕ) : ℚ) * S⟩)) := by
  rw [create_points_list, frange_eq hS, frange_eq hS, reverse_map_range, List.flatMap_map]
  apply flatMap_congr_mem
  intro r _
  simp only [Function.comp_apply, List.map_map]
  apply List.map_congr_left
  intro c _
  simp only [Function.comp_apply]
  rfl

theorem create_points_list_length (e : QgsRectangle) {S : ℚ} (hS : 0 < S) :
    (create_points_list e S).length = grid_rows e S * grid_cols e S := by
  rw [create_points_list_eq e hS, List.length_flatMap]
  simp [Function.comp_def, List.map_const', List.sum_replicate, smul_eq_mul]

theorem create_points_some_iff (e : QgsRectangle) (S : ℚ) :
    create_points e S =
      (if pyRound (e.height / S) * pyRound (e.width / S) = ((create_points_list e S).length : ℤ)
       then some (create_points_list e S, pyRound (e.width / S), pyRound (e.height / S))
       else none) := by
  rfl

/-- C1 (amended): for a rectangular extent and positive step size `S`, as long
as neither `W/S` nor `H/S` has fractional part exactly `1/2` together with an
odd integer part, the `rows * cols == len(points)` assertion inside
`create_points` holds and `create_points` returns exactly
`round(W/S) * round(H/S)` points. (As stated, for every extent, the claim is
false: see the counterexample.) -/
theorem C1_create_points_count (e : QgsRectangle) (S : ℚ)
    (hx : e.xMin ≤ e.xMax) (hy : e.yMin ≤ e.yMax) (hS : 0 < S)
    (hW : ¬(e.width / S - ⌊e.width / S⌋ = 1/2 ∧ Odd ⌊e.width / S⌋))
    (hH : ¬(e.height / S - ⌊e.height / S⌋ = 1/2 ∧ Odd ⌊e.height / S⌋)) :
    create_points e S = some (create_points_list e S, pyRound (e.width / S), pyRound (e.height / S))
      ∧ ((create_points_list e S).length : ℤ) = pyRound (e.height / S) * pyRound (e.width / S) := by
  have hcols : pyRound (e.width / S) = ⌈e.width / S - 1/2⌉ := pyRound_eq_ceil hW
  have hrows : pyRound (e.height / S) = ⌈e.height / S - 1/2⌉ := pyRound_eq_ceil hH
  have hWnn : (0 : ℚ) ≤ e.width / S := by
    apply div_nonneg _ (le_of_lt hS)
    rw [QgsRectangle.width]; linarith
  have hHnn : (0 : ℚ) ≤ e.height / S := by
    apply div_nonneg _ (le_of_lt hS)
    rw [QgsRectangle.height]; linarith
  have hcnn : 0 ≤ ⌈e.width / S - 1/2⌉ := by
    have : (-1 : ℤ) < ⌈e.width / S - 1/2⌉ := Int.lt_ceil.mpr (by push_cast; linarith)
    omega
  have hrnn : 0 ≤ ⌈e.height / S - 1/2⌉ := by
    have : (-1 : ℤ) < ⌈e.height / S - 1/2⌉ := Int.lt_ceil.mpr (by push_cast; linarith)
    omega
  have hcastc : ((grid_cols e S : ℕ) : ℤ) = ⌈e.width / S - 1/2⌉ := by
    rw [grid_cols_eq_ceil e hS, Int.toNat_of_nonneg hcnn]
  have hcastr : ((grid_rows e S : ℕ) : ℤ) = ⌈e.height / S - 1/2⌉ := by
    rw [grid_rows_eq_ceil e hS, Int.toNat_of_nonneg hrnn]
  have hlen : ((create_points_list e S).length : ℤ)
      = pyRound (e.height / S) * pyRound (e.width / S) := by
    rw [create_points_list_length e hS, hcols, hrows, ← hcastc, ← hcastr]
    push_cast
    ring
  refine ⟨?_, hlen⟩
  rw [create_points_some_iff, if_pos hlen.symm]

/-- C1 witness: the extent `(0, 0, 4, 3)` with step `1` satisfies every
hypothesis, and `create_points` succeeds returning `round(4) * round(3)`
points. -/
theorem C1_create_points_count_witness :
    create_points (QgsRectangle.mk 0 0 4 3) 1
        = some (create_points_list (QgsRectangle.mk 0 0 4 3) 1,
            pyRound ((QgsRectangle.mk 0 0 4 3).width / 1),
            pyRound ((QgsRectangle.mk 0 0 4 3).height / 1))
      ∧ ((create_points_list (QgsRectangle.mk 0 0 4 3) 1).length : ℤ)
        = pyRound ((QgsRectangle.mk 0 0 4 3).height / 1)
          * pyRound ((QgsRectangle.mk 0 0 4 3).width / 1) :=
  C1_create_points_count (QgsRectangle.mk 0 0 4 3) 1 (by norm_num) (by norm_num) (by norm_num)
    (by norm_num [QgsRectangle.width]) (by norm_num [QgsRectangle.height])

/-- C1 counterexample: the extent `(0, 0, 3, 2)` (width 3, height 2) with step
size 2 is a rectangular extent with a positive step, yet
`round(W/S) * round(H/S) = round(1.5) * round(1) = 2` while the generated grid
has a single point, so the `rows * cols == len(points)` assertion fails and
`create_points` raises `AssertionError` (modelled as `none`) instead of
returning `round(W/S) * round(H/S)` points. -/
theorem C1_create_points_count_counterexample :
    (0 : ℚ) < 2
      ∧ (QgsRectangle.mk 0 0 3 2).xMin ≤ (QgsRectangle.mk 0 0 3 2).xMax
      ∧ (QgsRectangle.mk 0 0 3 2).yMin ≤ (QgsRectangle.mk 0 0 3 2).yMax
      ∧ pyRound ((QgsRectangle.mk 0 0 3 2).width / 2)
          * pyRound ((QgsRectangle.mk 0 0 3 2).height / 2) = 2
      ∧ (create_points_list (QgsRectangle.mk 0 0 3 2) 2).length = 1
      ∧ create_points (QgsRectangle.mk 0 0 3 2) 2 = none := by
  have hw : (QgsRectangle.mk 0 0 3 2).width = 3 := by norm_num [QgsRectangle.width]
  have hh : (QgsRectangle.mk 0 0 3 2).height = 2 := by norm_num [QgsRectangle.height]
  have hcols : pyRound ((3 : ℚ) / 2) = 2 := by norm_num [pyRound]
  have hrows : pyRound ((2 : ℚ) / 2) = 1 := by norm_num [pyRound]
  have hgc : grid_cols (QgsRectangle.mk 0 0 3 2) 2 = 1 := by
    rw [grid_cols]
    exact frangeCount_eq_of_bounds _ _ _ 1 (by norm_num) (by norm_num)
  have hgr : grid_rows (QgsRectangle.mk 0 0 3 2) 2 = 1 := by
    rw [grid_rows]
    exact frangeCount_eq_of_bounds _ _ _ 1 (by norm_num) (by norm_num)
  have hlen : (create_points_list (QgsRectangle.mk 0 0 3 2) 2).length = 1 := by
    rw [create_points_list_length _ (by norm_num : (0:ℚ) < 2), hgc, hgr]
  refine ⟨by norm_num, by norm_num, by norm_num, ?_, hlen, ?_⟩
  · rw [hw, hh, hcols, hrows]
    norm_num
  · rw [create_points_some_iff, hw, hh, hcols, hrows, hlen]
    norm_num

/-- C5: whatever list `create_points` returns is `create_points_list`, which
is laid out row-major from the top row (the row index `r` counts down from
the maximum Y value, reached at `r = 0`) to the bottom row, with X increasing
left to right within each row; every point is at least half a step inside the
minimum edges, and when the grid is nonempty the point
`(xMin + 0.5*S, yMin + 0.5*S)` realising both minimal coordinates belongs to
it. -/
theorem C5_create_points_layout (e : QgsRectangle) (S : ℚ) (hS : 0 < S) :
    (∀ pts cols rows, create_points e S = some (pts, cols, rows) → pts = create_points_list e S)
      ∧ create_points_list e S =
          (List.range (grid_rows e S)).flatMap (fun r =>
            (List.range (grid_cols e S)).map (fun c : ℕ =>
              ⟨e.xMin + S * (1/2) + (c : ℚ) * S,
               e.yMin + S * (1/2) + ((grid_rows e S - 1 - r : ℕ) : ℚ) * S⟩))
      ∧ (∀ p ∈ create_points_list e S,
          e.xMin + S * (1/2) ≤ p.x ∧ e.yMin + S * (1/2) ≤ p.y)
      ∧ (create_points_list e S ≠ [] →
          (⟨e.xMin + S * (1/2), e.yMin + S * (1/2)⟩ : QgsPointXY) ∈ create_points_list e S) := by
  refine ⟨?_, create_points_list_eq e hS, ?_, ?_⟩
  · intro pts cols rows h
    rw [create_points_some_iff] at h
    split_ifs at h with hcond
    exact (congrArg Prod.fst (Option.some.inj h)).symm
  · intro p hp
    rw [create_points_list_eq e hS] at hp
    simp only [List.mem_flatMap, List.mem_map, List.mem_range] at hp
    obtain ⟨r, _, c, _, rfl⟩ := hp
    constructor
    · have hc : 0 ≤ (c : ℚ) * S := mul_nonneg (Nat.cast_nonneg c) hS.le
      simp only []
      linarith
    · have hr : 0 ≤ ((grid_rows e S - 1 - r : ℕ) : ℚ) * S :=
        mul_nonneg (Nat.cast_nonneg _) hS.le
      simp only []
      linarith
  · intro hne
    have hlen : (create_points_list e S).length ≠ 0 := by
      intro h0
      exact hne (List.eq_nil_of_length_eq_zero h0)
    rw [create_points_list_length e hS] at hlen
    have hrows : 0 < grid_rows e S := by
      rcases Nat.eq_zero_or_pos (grid_rows e S) with h | h
      · exact absurd (by rw [h, Nat.zero_mul]) hlen
      · exact h
    have hcols : 0 < grid_cols e S := by
      rcases Nat.eq_zero_or_pos (grid_cols e S) with h | h
      · exact absurd (by rw [h, Nat.mul_zero]) hlen
      · exact h
    rw [create_points_list_eq e hS]
    refine List.mem_flatMap.mpr ⟨grid_rows e S - 1, List.mem_range.mpr (by omega), ?_⟩
    refine List.mem_map.mpr ⟨0, List.mem_range.mpr hcols, ?_⟩
    have hz : grid_rows e S - 1 - (grid_rows e S - 1) = 0 := by omega
    rw [hz]
    simp only [Nat.cast_zero, QgsPointXY.mk.injEq]
    constructor <;> ring

/-- C5 witness: for the extent `(0, 0, 2, 2)` and step `1`, the returned list
is `create_points_list`, and the half-step-inset corner point `(0.5, 0.5)`
with minimal X and Y belongs to the grid. -/
theorem C5_create_points_layout_witness :
    (⟨(QgsRectangle.mk 0 0 2 2).xMin + 1 * (1/2),
      (QgsRectangle.mk 0 0 2 2).yMin + 1 * (1/2)⟩ : QgsPointXY)
      ∈ create_points_list (QgsRectangle.mk 0 0 2 2) 1 := by
  have hgc : grid_cols (QgsRectangle.mk 0 0 2 2) 1 = 2 := by
    rw [grid_cols]
    exact frangeCount_eq_of_bounds _ _ _ 2 (by norm_num) (by norm_num)
  have hgr : grid_rows (QgsRectangle.mk 0 0 2 2) 1 = 2 := by
    rw [grid_rows]
    exact frangeCount_eq_of_bounds _ _ _ 2 (by norm_num) (by norm_num)
  have hlen : (create_points_list (QgsRectangle.mk 0 0 2 2) 1).length = 4 := by
    rw [create_points_list_length _ (by norm_num : (0:ℚ) < 1), hgc, hgr]
  exact (C5_create_points_layout (QgsRectangle.mk 0 0 2 2) 1 (by norm_num)).2.2.2
    (by intro h; rw [h] at hlen; simp at hlen)

/-! ### `transform_points` -/

theorem transform_points_eq_map (tf : QgsPointXY → Except Unit QgsPointXY)
    (points : List QgsPointXY) :
    transform_points tf points = points.map (fun p => (tf p).toOption) := by
  induction points with
  | nil => rfl
  | cons p ps ih =>
    rw [transform_points, ih, List.map_cons]
    cases tf p <;> rfl

/-- C3: `transform_points` is total (the per-point `QgsCsException` is caught
inside the loop, so no exception escapes) and returns a list of the same
length in input order, whose `i`-th entry is `some` of the transformed point
when the engine transform succeeds on the `i`-th input and the sentinel
`none` exactly when it raises. -/
theorem C3_transform_points_sentinel (tf : QgsPointXY → Except Unit QgsPointXY)
    (points : List QgsPointXY) :
    (transform_points tf points).length = points.length
      ∧ (∀ i (hi : i < points.length),
          (transform_points tf points)[i]? = some (tf points[i]).toOption)
      ∧ (∀ i (hi : i < points.length),
          ((transform_points tf points)[i]? = some none
            ↔ ∃ er, tf points[i] = .error er)) := by
  rw [transform_points_eq_map]
  refine ⟨by simp, ?_, ?_⟩
  · intro i hi
    rw [List.getElem?_map, List.getElem?_eq_getElem hi, Option.map_some']
  · intro i hi
    rw [List.getElem?_map, List.getElem?_eq_getElem hi, Option.map_some']
    cases h : tf points[i] with
    | ok q => simp [Except.toOption, h]
    | error er => simp [Except.toOption, h]

/-- C3 witness: a transform that fails exactly on the out-of-domain point
`(200, 0)`, applied to a two-point list, keeps the length, transforms the
first point and maps the failing one to `none`. -/
theorem C3_transform_points_sentinel_witness :
    (transform_points
        (fun p => if p.x < 100 then Except.ok ⟨p.y, p.x⟩ else Except.error ())
        [⟨0, 7⟩, ⟨200, 0⟩]).length = 2
      ∧ (transform_points
          (fun p => if p.x < 100 then Except.ok ⟨p.y, p.x⟩ else Except.error ())
          [⟨0, 7⟩, ⟨200, 0⟩])[0]? = some (some ⟨7, 0⟩)
      ∧ (transform_points
          (fun p => if p.x < 100 then Except.ok ⟨p.y, p.x⟩ else Except.error ())
          [⟨0, 7⟩, ⟨200, 0⟩])[1]? = some none := by
  have h := C3_transform_points_sentinel
    (fun p => if p.x < 100 then Except.ok ⟨p.y, p.x⟩ else Except.error ())
    [⟨0, 7⟩, ⟨200, 0⟩]
  refine ⟨h.1, ?_, ?_⟩
  · have h0 := h.2.1 0 (by norm_num)
    rw [h0]
    norm_num [Except.toOption]
  · have h1 := h.2.1 1 (by norm_num)
    rw [h1]
    norm_num [Except.toOption]

/-! ### `gather_factors` -/

theorem gather_go_ok {factorsOf : QgsPointXY → QgsProjectionFactors} {d : ℕ}
    (hd : d ≠ 0) (points : List (Option QgsPointXY)) :
    gather_go factorsOf d points = .ok (points.map (factors_for_point factorsOf)) := by
  induction points with
  | nil => rfl
  | cons p ps ih => rw [gather_go, if_neg hd, ih, List.map_cons]

theorem gather_go_raises {factorsOf : QgsPointXY → QgsProjectionFactors}
    (points : List (Option QgsPointXY)) (hne : points ≠ []) :
    gather_go factorsOf 0 points = .error .zeroDivision := by
  cases points with
  | nil => exact absurd rfl hne
  | cons p ps => rw [gather_go, if_pos rfl]

theorem gather_pyproj_go_ok {get_factors : QgsPointXY → QgsProjectionFactors} {d : ℕ}
    (hd : d ≠ 0) (points : List (Option QgsPointXY)) :
    gather_pyproj_go get_factors d points = .ok (points.map (fun p => p.map get_factors)) := by
  induction points with
  | nil => rfl
  | cons p ps ih => rw [gather_pyproj_go, if_neg hd, ih, List.map_cons]

theorem gather_pyproj_go_raises {get_factors : QgsPointXY → QgsProjectionFactors}
    (points : List (Option QgsPointXY)) (hne : points ≠ []) :
    gather_pyproj_go get_factors 0 points = .error .zeroDivision := by
  cases points with
  | nil => exact absurd rfl hne
  | cons p ps => rw [gather_pyproj_go, if_pos rfl]

theorem factors_for_point_eq_none_iff (factorsOf : QgsPointXY → QgsProjectionFactors)
    (op : Option QgsPointXY) :
    factors_for_point factorsOf op = none ↔
      op = none
        ∨ ∃ p, op = some p
            ∧ (¬(-90 < p.y ∧ p.y < 90 ∧ -180 < p.x ∧ p.x < 180)
                ∨ (factorsOf p).isValid = false) := by
  cases op with
  | none => simp [factors_for_point]
  | some p =>
    rw [factors_for_point]
    by_cases hr : -90 < p.y ∧ p.y < 90 ∧ -180 < p.x ∧ p.x < 180
    · rw [if_pos hr]
      by_cases hv : (factorsOf p).isValid
      · simp [hv, hr]
      · simp [hv, hr]
    · rw [if_neg hr]
      constructor
      · intro _
        exact Or.inr ⟨p, rfl, Or.inl hr⟩
      · intro _
        rfl

/-- C7 (amended): on every nonempty list of fewer than 1000 points both
`gather_factors` and `gather_factors_pyproj` raise `ZeroDivisionError` on the
first loop iteration (since `int(len(points) / 1000)` is `0`), and factor
calculation completes exactly for inputs that are empty or have at least
1000 points. (The original claim's "only completes for at least 1000 points"
fails on the empty list: see the counterexample.) -/
theorem C7_gather_factors_zero_division
    (factorsOf get_factors : QgsPointXY → QgsProjectionFactors)
    (points : List (Option QgsPointXY)) :
    (points ≠ [] → points.length < 1000 →
        gather_factors factorsOf points = .error .zeroDivision
          ∧ gather_factors_pyproj get_factors points = .error .zeroDivision)
      ∧ ((∃ res, gather_factors factorsOf points = .ok res)
          ↔ (points = [] ∨ 1000 ≤ points.length))
      ∧ ((∃ res, gather_factors_pyproj get_factors points = .ok res)
          ↔ (points = [] ∨ 1000 ≤ points.length)) := by
  refine ⟨?_, ?_, ?_⟩
  · intro hne hlen
    have hd : points.length / 1000 = 0 := Nat.div_eq_of_lt hlen
    rw [gather_factors, gather_factors_pyproj, hd]
    exact ⟨gather_go_raises points hne, gather_pyproj_go_raises points hne⟩
  · constructor
    · rintro ⟨res, hres⟩
      by_cases hne : points = []
      · exact Or.inl hne
      · right
        by_contra hlen
        have hd : points.length / 1000 = 0 := Nat.div_eq_of_lt (by omega)
        rw [gather_factors, hd, gather_go_raises points hne] at hres
        exact Except.noConfusion hres
    · rintro (rfl | hlen)
      · exact ⟨[], rfl⟩
      · have hd : points.length / 1000 ≠ 0 := by
          have : 0 < points.length / 1000 := Nat.div_pos hlen (by norm_num)
          omega
        exact ⟨_, by rw [gather_factors, gather_go_ok hd]⟩
  · constructor
    · rintro ⟨res, hres⟩
      by_cases hne : points = []
      · exact Or.inl hne
      · right
        by_contra hlen
        have hd : points.length / 1000 = 0 := Nat.div_eq_of_lt (by omega)
        rw [gather_factors_pyproj, hd, gather_pyproj_go_raises points hne] at hres
        exact Except.noConfusion hres
    · rintro (rfl | hlen)
      · exact ⟨[], rfl⟩
      · have hd : points.length / 1000 ≠ 0 := by
          have : 0 < points.length / 1000 := Nat.div_pos hlen (by norm_num)
          omega
        exact ⟨_, by rw [gather_factors_pyproj, gather_pyproj_go_ok hd]⟩

/-- C7 witness: a one-point list (nonempty, fewer than 1000 points) makes
both gather functions raise `ZeroDivisionError`. -/
theorem C7_gather_factors_zero_division_witness :
    gather_factors (fun _ => ⟨1, 1, 1, 1, 1, 1, 1, 1, 1, 1, 1, 1, true⟩)
        [some ⟨10, 50⟩] = .error .zeroDivision
      ∧ gather_factors_pyproj (fun _ => ⟨1, 1, 1, 1, 1, 1, 1, 1, 1, 1, 1, 1, true⟩)
        [some ⟨10, 50⟩] = .error .zeroDivision :=
  (C7_gather_factors_zero_division
      (fun _ => ⟨1, 1, 1, 1, 1, 1, 1, 1, 1, 1, 1, 1, true⟩)
      (fun _ => ⟨1, 1, 1, 1, 1, 1, 1, 1, 1, 1, 1, 1, true⟩)
      [some ⟨10, 50⟩]).1 (by simp) (by simp)

/-- C7 counterexample: the empty list has fewer than 1000 points and yet
`gather_factors` completes on it (returning `[]`), so factor calculation does
not complete only for inputs of at least 1000 points. -/
theorem C7_gather_factors_zero_division_counterexample :
    gather_factors (fun _ => ⟨1, 1, 1, 1, 1, 1, 1, 1, 1, 1, 1, 1, true⟩)
        ([] : List (Option QgsPointXY)) = .ok []
      ∧ gather_factors_pyproj (fun _ => ⟨1, 1, 1, 1, 1, 1, 1, 1, 1, 1, 1, 1, true⟩)
        ([] : List (Option QgsPointXY)) = .ok []
      ∧ ([] : List (Option QgsPointXY)).length < 1000 :=
  ⟨rfl, rfl, by norm_num⟩

/-- C6 (amended): on every input list that is empty or has at least 1000
points (so that the progress-bar modulo does not raise), `gather_factors`
returns a same-length list whose `i`-th entry is `None` exactly when the
input entry was `None`, the point lies outside the open geographic range, or
the engine's factors are invalid; every other entry holds the engine's
result. (As stated, for every input list, the claim fails: see the
counterexample.) -/
theorem C6_gather_factors_entries (factorsOf : QgsPointXY → QgsProjectionFactors)
    (points : List (Option QgsPointXY))
    (h : points = [] ∨ 1000 ≤ points.length) :
    ∃ res, gather_factors factorsOf points = .ok res
      ∧ res.length = points.length
      ∧ (∀ i (hi : i < points.length),
          res[i]? = some (factors_for_point factorsOf points[i]))
      ∧ (∀ i (hi : i < points.length),
          (res[i]? = some none ↔
            points[i] = none
              ∨ ∃ p, points[i] = some p
                  ∧ (¬(-90 < p.y ∧ p.y < 90 ∧ -180 < p.x ∧ p.x < 180)
                      ∨ (factorsOf p).isValid = false))) := by
  have hok : gather_factors factorsOf points
      = .ok (points.map (factors_for_point factorsOf)) := by
    rcases h with rfl | hlen
    · rfl
    · have hd : points.length / 1000 ≠ 0 := by
        have : 0 < points.length / 1000 := Nat.div_pos hlen (by norm_num)
        omega
      rw [gather_factors, gather_go_ok hd]
  refine ⟨points.map (factors_for_point factorsOf), hok, by simp, ?_, ?_⟩
  · intro i hi
    rw [List.getElem?_map, List.getElem?_eq_getElem hi, Option.map_some']
  · intro i hi
    rw [List.getElem?_map, List.getElem?_eq_getElem hi, Option.map_some',
      Option.some.injEq]
    exact factors_for_point_eq_none_iff factorsOf points[i]

/-- C6 witness: applying the amended statement to the empty input list. -/
theorem C6_gather_factors_entries_witness :
    ∃ res, gather_factors (fun _ => ⟨1, 1, 1, 1, 1, 1, 1, 1, 1, 1, 1, 1, true⟩)
        ([] : List (Option QgsPointXY)) = .ok res
      ∧ res.length = ([] : List (Option QgsPointXY)).length := by
  obtain ⟨res, h1, h2, -, -⟩ := C6_gather_factors_entries
    (fun _ => ⟨1, 1, 1, 1, 1, 1, 1, 1, 1, 1, 1, 1, true⟩)
    ([] : List (Option QgsPointXY)) (Or.inl rfl)
  exact ⟨res, h1, h2⟩

/-- C6 counterexample: a one-point input list (so `int(len/1000) = 0`) makes
`gather_factors` raise `ZeroDivisionError` rather than return a list, so the
claim does not hold for every input list. -/
theorem C6_gather_factors_entries_counterexample :
    gather_factors (fun _ => ⟨1, 1, 1, 1, 1, 1, 1, 1, 1, 1, 1, 1, true⟩)
      [some ⟨0, 0⟩] = .error .zeroDivision := rfl

/-- C10: `gather_factors` uses strict bounds: whenever the `i`-th input point
exists with latitude exactly (or beyond) plus-or-minus 90 or longitude
exactly (or beyond) plus-or-minus 180, the `i`-th result is the sentinel
`none` for every engine (the point is never handed to `crs.factors`); and a
point strictly inside the open range is evaluated, contributing the engine's
result filtered by its validity flag. -/
theorem C10_gather_factors_strict_bounds (points : List (Option QgsPointXY)) (i : ℕ)
    (p : QgsPointXY) (hlen : 1000 ≤ points.length) (hp : points[i]? = some (some p)) :
    ((p.y ≤ -90 ∨ 90 ≤ p.y ∨ p.x ≤ -180 ∨ 180 ≤ p.x) →
        ∀ factorsOf, ∃ res, gather_factors factorsOf points = .ok res
            ∧ res[i]? = some none)
      ∧ ((-90 < p.y ∧ p.y < 90 ∧ -180 < p.x ∧ p.x < 180) →
        ∀ factorsOf, ∃ res, gather_factors factorsOf points = .ok res
            ∧ res[i]? = some (if (factorsOf p).isValid
                then some (factorsOf p) else none)) := by
  have hd : points.length / 1000 ≠ 0 := by
    have : 0 < points.length / 1000 := Nat.div_pos hlen (by norm_num)
    omega
  constructor
  · intro hb factorsOf
    refine ⟨points.map (factors_for_point factorsOf),
      by rw [gather_factors, gather_go_ok hd], ?_⟩
    rw [List.getElem?_map, hp, Option.map_some']
    have hout : ¬(-90 < p.y ∧ p.y < 90 ∧ -180 < p.x ∧ p.x < 180) := by
      rintro ⟨h1, h2, h3, h4⟩
      rcases hb with h | h | h | h <;> linarith
    rw [factors_for_point, if_neg hout]
  · intro hin factorsOf
    refine ⟨points.map (factors_for_point factorsOf),
      by rw [gather_factors, gather_go_ok hd], ?_⟩
    rw [List.getElem?_map, hp, Option.map_some']
    rw [factors_for_point, if_pos hin]

set_option maxRecDepth 10000 in
/-- C10 witness: in a 1000-point list whose first point has longitude exactly
180, the first result entry is the sentinel `none`. -/
theorem C10_gather_factors_strict_bounds_witness :
    ∃ res, gather_factors (fun _ => ⟨1, 1, 1, 1, 1, 1, 1, 1, 1, 1, 1, 1, true⟩)
        (List.replicate 1000 (some ⟨180, 45⟩)) = .ok res
      ∧ res[0]? = some none :=
  (C10_gather_factors_strict_bounds (List.replicate 1000 (some ⟨180, 45⟩)) 0 ⟨180, 45⟩
      (List.length_replicate 1000 (some ⟨180, 45⟩)).symm.le
      (by rw [List.getElem?_replicate, if_pos (by norm_num)])).1
    (Or.inr (Or.inr (Or.inr (by norm_num))))
    (fun _ => ⟨1, 1, 1, 1, 1, 1, 1, 1, 1, 1, 1, 1, true⟩)

/-! ### `extract_factor` and the factor tables -/

theorem qgis_table_attrs :
    ∀ nm ∈ PROJECTION_FACTORS_QGIS, ∀ f : QgsProjectionFactors,
      (qgis_factor_attr f nm.1).isSome := by
  intro nm hm f
  simp only [PROJECTION_FACTORS_QGIS, List.mem_cons, List.not_mem_nil, or_false] at hm
  rcases hm with rfl | rfl | rfl | rfl | rfl | rfl | rfl | rfl | rfl | rfl | rfl | rfl <;> rfl

theorem pyproj_table_attrs :
    ∀ nm ∈ PROJECTION_FACTORS_PYPROJ, ∀ f : QgsProjectionFactors,
      (pyproj_factor_attr f nm.1).isSome := by
  intro nm hm f
  simp only [PROJECTION_FACTORS_PYPROJ, List.mem_cons, List.not_mem_nil, or_false] at hm
  rcases hm with rfl | rfl | rfl | rfl | rfl | rfl | rfl | rfl | rfl | rfl | rfl | rfl <;> rfl

theorem factor_attr_isSome_of_mem (use_proj : Bool) (factor : String)
    (hmem : factor ∈ ((if use_proj then PROJECTION_FACTORS_PYPROJ
        else PROJECTION_FACTORS_QGIS).map Prod.fst)) :
    ∀ f : QgsProjectionFactors,
      (if use_proj then pyproj_factor_attr f factor else qgis_factor_attr f factor).isSome := by
  intro f
  obtain ⟨nm, hnm, rfl⟩ := List.mem_map.mp hmem
  cases use_proj with
  | false => exact qgis_table_attrs nm (by simpa using hnm) f
  | true => exact pyproj_table_attrs nm (by simpa using hnm) f

theorem extract_go_ok (use_proj : Bool) (factor : String)
    (hattr : ∀ f : QgsProjectionFactors,
      (if use_proj then pyproj_factor_attr f factor else qgis_factor_attr f factor).isSome) :
    ∀ pfs : List (Option QgsProjectionFactors),
      ∃ values, extract_go use_proj factor pfs = .ok values
        ∧ values.length = pfs.length
        ∧ (∀ i (hi : i < pfs.length),
            (values[i]? = some PyFloat.nan ↔ pfs[i] = none)) := by
  intro pfs
  induction pfs with
  | nil => exact ⟨[], rfl, rfl, fun i hi => absurd hi (by simp)⟩
  | cons pf rest ih =>
    obtain ⟨values, hok, hlen, hiff⟩ := ih
    cases pf with
    | none =>
      refine ⟨.nan :: values, ?_, by simp [hlen], ?_⟩
      · simp only [extract_go, hok]
      · intro i hi
        match i with
        | 0 => simp
        | (j + 1) =>
          simp only [List.getElem?_cons_succ, List.getElem_cons_succ]
          exact hiff j (by simpa using hi)
    | some f =>
      obtain ⟨q, hq⟩ := Option.isSome_iff_exists.mp (hattr f)
      refine ⟨.num q :: values, ?_, by simp [hlen], ?_⟩
      · simp only [extract_go, hq, hok]
      · intro i hi
        match i with
        | 0 => simp
        | (j + 1) =>
          simp only [List.getElem?_cons_succ, List.getElem_cons_succ]
          exact hiff j (by simpa using hi)

/-- C4: for every factor name of the fixed factor table and every list of
per-point factor results, `extract_factor` succeeds and returns a list of
exactly the same length, with NaN at precisely the positions whose entry is
the sentinel `None`; no position is omitted. -/
theorem C4_extract_factor_nan (use_proj : Bool)
    (projection_factors : List (Option QgsProjectionFactors)) (factor : String)
    (hfactor : factor ∈ ((if use_proj then PROJECTION_FACTORS_PYPROJ
        else PROJECTION_FACTORS_QGIS).map Prod.fst)) :
    ∃ values, extract_factor use_proj projection_factors factor = .ok values
      ∧ values.length = projection_factors.length
      ∧ (∀ i (hi : i < projection_factors.length),
          (values[i]? = some PyFloat.nan ↔ projection_factors[i] = none)) :=
  extract_go_ok use_proj factor (factor_attr_isSome_of_mem use_proj factor hfactor)
    projection_factors

/-- C4 witness: extracting `arealScale` from a two-entry list whose first
entry is absent gives a two-entry value list with NaN exactly at position 0. -/
theorem C4_extract_factor_nan_witness :
    ∃ values, extract_factor false
        [none, some ⟨2, 3, 4, 5, 6, 7, 8, 9, 10, 11, 12, 13, true⟩] "arealScale"
        = .ok values
      ∧ values.length = 2
      ∧ (values[0]? = some PyFloat.nan
          ↔ ([none, some ⟨2, 3, 4, 5, 6, 7, 8, 9, 10, 11, 12, 13, true⟩]
              : List (Option QgsProjectionFactors))[0] = none)
      ∧ (values[1]? = some PyFloat.nan
          ↔ ([none, some ⟨2, 3, 4, 5, 6, 7, 8, 9, 10, 11, 12, 13, true⟩]
              : List (Option QgsProjectionFactors))[1] = none) := by
  obtain ⟨values, h1, h2, h3⟩ := C4_extract_factor_nan false
    [none, some ⟨2, 3, 4, 5, 6, 7, 8, 9, 10, 11, 12, 13, true⟩] "arealScale"
    (by simp [PROJECTION_FACTORS_QGIS])
  exact ⟨values, h1, h2, h3 0 (by norm_num), h3 1 (by norm_num)⟩

/-! ### `write_factors_to_tif` -/

theorem write_go_ok (use_pyproj : Bool) (factors : List (Option QgsProjectionFactors))
    (cols rows : ℤ) (h : cols * rows = (factors.length : ℤ)) :
    ∀ names : List (String × String),
      (∀ nm ∈ names, ∀ f : QgsProjectionFactors,
        (if use_pyproj then pyproj_factor_attr f nm.1 else qgis_factor_attr f nm.1).isSome) →
      ∃ bands, write_go use_pyproj factors cols rows names = .ok bands
        ∧ bands.length = names.length
        ∧ ∀ i (hi : i < names.length),
            ∃ values, extract_factor use_pyproj factors (names.get ⟨i, hi⟩).1 = .ok values
              ∧ bands[i]? = some { data := pack_values values, nodata := PyFloat.nan } := by
  intro names
  induction names with
  | nil => exact fun _ => ⟨[], rfl, rfl, fun i hi => absurd hi (by simp)⟩
  | cons nm rest ih =>
    intro hnames
    obtain ⟨factor, factor_text⟩ := nm
    obtain ⟨values, hvok, hvlen, -⟩ :=
      extract_go_ok use_pyproj factor
        (fun f => hnames (factor, factor_text) (List.mem_cons_self _ _) f) factors
    obtain ⟨bands, hbok, hblen, hbands⟩ :=
      ih (fun nm' hm f => hnames nm' (List.mem_cons_of_mem _ hm) f)
    have hassert : cols * rows = (values.length : ℤ) := by rw [hvlen]; exact h
    refine ⟨{ data := pack_values values, nodata := PyFloat.nan } :: bands, ?_,
      by simp [hblen], ?_⟩
    · have hvok' : extract_factor use_pyproj factors factor = .ok values := hvok
      simp only [write_go, hvok', hassert, if_pos, hbok]
    · intro i hi
      match i with
      | 0 => exact ⟨values, hvok, by simp⟩
      | (j + 1) =>
        obtain ⟨values', hv', hb'⟩ := hbands j (by simpa using hi)
        exact ⟨values', hv', by simpa using hb'⟩

/-- C8: when the usual `cols * rows = len(factors)` relation holds (it does
for every grid produced by `create_points`), `write_factors_to_tif` writes a
Float64 multi-band raster with exactly one band per entry of the fixed
factor table (12 bands, in table order); the `i`-th band's block data is the
packed double-precision serialization of the `i`-th factor's extracted
values in input order, and every band's no-data value is NaN. -/
theorem C8_write_factors_bands (use_pyproj : Bool)
    (factors : List (Option QgsProjectionFactors)) (cols rows : ℤ)
    (h : cols * rows = (factors.length : ℤ)) :
    ∃ r, write_factors_to_tif use_pyproj factors cols rows = .ok r
      ∧ r.dtype = GdalDataType.Float64
      ∧ r.cols = cols ∧ r.rows = rows
      ∧ r.bands.length = 12
      ∧ ∀ i (hi : i < (if use_pyproj then PROJECTION_FACTORS_PYPROJ
            else PROJECTION_FACTORS_QGIS).length),
          ∃ values, extract_factor use_pyproj factors
              ((if use_pyproj then PROJECTION_FACTORS_PYPROJ
                else PROJECTION_FACTORS_QGIS).get ⟨i, hi⟩).1 = .ok values
            ∧ r.bands[i]? = some { data := pack_values values, nodata := PyFloat.nan } := by
  have hnames : ∀ nm ∈ (if use_pyproj then PROJECTION_FACTORS_PYPROJ
      else PROJECTION_FACTORS_QGIS), ∀ f : QgsProjectionFactors,
      (if use_pyproj then pyproj_factor_attr f nm.1 else qgis_factor_attr f nm.1).isSome := by
    cases use_pyproj with
    | false => exact fun nm hm f => qgis_table_attrs nm (by simpa using hm) f
    | true => exact fun nm hm f => pyproj_table_attrs nm (by simpa using hm) f
  obtain ⟨bands, hok, hlen, hbands⟩ := write_go_ok use_pyproj factors cols rows h _ hnames
  have hlen12 : bands.length = 12 := by
    rw [hlen]
    cases use_pyproj <;> rfl
  refine ⟨{ dtype := .Float64, cols := cols, rows := rows, bands := bands }, ?_, rfl, rfl, rfl,
    hlen12, hbands⟩
  rw [write_factors_to_tif, hok]

/-- C8 witness: an empty factor list with a `0 x 0` raster satisfies the
assertion relation, and the written raster is Float64 with 12 bands. -/
theorem C8_write_factors_bands_witness :
    ∃ r, write_factors_to_tif false ([] : List (Option QgsProjectionFactors)) 0 0 = .ok r
      ∧ r.dtype = GdalDataType.Float64
      ∧ r.bands.length = 12 := by
  obtain ⟨r, h1, h2, -, -, h5, -⟩ :=
    C8_write_factors_bands false ([] : List (Option QgsProjectionFactors)) 0 0 (by simp)
  exact ⟨r, h1, h2, h5⟩

/-! ### `create_vrt_for_factors_tif` -/

theorem assign_band_descriptions_eq (names : List String) :
    ∀ bands : List VrtBand, bands.length = names.length →
      assign_band_descriptions names bands = names.map (fun n => ⟨some n⟩) := by
  induction names with
  | nil =>
    intro bands h
    cases bands with
    | nil => rfl
    | cons b bs => simp at h
  | cons n ns ih =>
    intro bands h
    cases bands with
    | nil => simp at h
    | cons b bs =>
      rw [assign_band_descriptions, List.map_cons, ih bs (by simpa using h)]

/-- C9: when the VRT built over the written raster has one band per factor
table entry (it always does, since the raster has exactly 12 bands),
`create_vrt_for_factors_tif` assigns each band a `Description` whose text is
the display name of the factor at the same position, pairing the `i`-th band
with the `i`-th factor display name. -/
theorem C9_create_vrt_band_names (use_pyproj : Bool) (vrt_bands : List VrtBand)
    (h : vrt_bands.length = (if use_pyproj then PROJECTION_FACTORS_PYPROJ
        else PROJECTION_FACTORS_QGIS).length) :
    create_vrt_for_factors_tif use_pyproj vrt_bands
        = (if use_pyproj then PROJECTION_FACTORS_PYPROJ
            else PROJECTION_FACTORS_QGIS).map (fun entry => ⟨some entry.2⟩)
      ∧ ∀ i (hi : i < (if use_pyproj then PROJECTION_FACTORS_PYPROJ
            else PROJECTION_FACTORS_QGIS).length),
          (create_vrt_for_factors_tif use_pyproj vrt_bands)[i]?
            = some ⟨some ((if use_pyproj then PROJECTION_FACTORS_PYPROJ
                else PROJECTION_FACTORS_QGIS).get ⟨i, hi⟩).2⟩ := by
  have heq : create_vrt_for_factors_tif use_pyproj vrt_bands
      = (if use_pyproj then PROJECTION_FACTORS_PYPROJ
          else PROJECTION_FACTORS_QGIS).map (fun entry => ⟨some entry.2⟩) := by
    rw [create_vrt_for_factors_tif,
      assign_band_descriptions_eq _ vrt_bands (by rw [h, List.length_map]),
      List.map_map]
    rfl
  refine ⟨heq, ?_⟩
  intro i hi
  rw [heq, List.getElem?_eq_getElem (by simpa using hi), List.getElem_map]
  rfl

/-- C9 witness: a fresh 12-band VRT (no descriptions) gets exactly the QGIS
factor display names, in table order. -/
theorem C9_create_vrt_band_names_witness :
    create_vrt_for_factors_tif false (List.replicate 12 ⟨none⟩)
      = PROJECTION_FACTORS_QGIS.map (fun entry => ⟨some entry.2⟩) := by
  have h := C9_create_vrt_band_names false (List.replicate 12 ⟨none⟩)
    (by rw [List.length_replicate]; rfl)
  simpa using h.1

/-! ### The pipeline: `create_factors_tif` and `run` -/

theorem gather_go_error_eq {factorsOf : QgsPointXY → QgsProjectionFactors} {d : ℕ} :
    ∀ {points : List (Option QgsPointXY)} {e : PErr},
      gather_go factorsOf d points = .error e → e = .zeroDivision := by
  intro points
  induction points with
  | nil => intro e h; exact Except.noConfusion h
  | cons p ps ih =>
    intro e h
    rw [gather_go] at h
    by_cases hd : d = 0
    · rw [if_pos hd] at h
      exact (Except.error.inj h).symm
    · rw [if_neg hd] at h
      cases hrec : gather_go factorsOf d ps with
      | ok l => rw [hrec] at h; exact Except.noConfusion h
      | error e' =>
        rw [hrec] at h
        exact (Except.error.inj h) ▸ ih hrec

theorem gather_pyproj_go_error_eq {get_factors : QgsPointXY → QgsProjectionFactors} {d : ℕ} :
    ∀ {points : List (Option QgsPointXY)} {e : PErr},
      gather_pyproj_go get_factors d points = .error e → e = .zeroDivision := by
  intro points
  induction points with
  | nil => intro e h; exact Except.noConfusion h
  | cons p ps ih =>
    intro e h
    rw [gather_pyproj_go] at h
    by_cases hd : d = 0
    · rw [if_pos hd] at h
      exact (Except.error.inj h).symm
    · rw [if_neg hd] at h
      cases hrec : gather_pyproj_go get_factors d ps with
      | ok l => rw [hrec] at h; exact Except.noConfusion h
      | error e' =>
        rw [hrec] at h
        exact (Except.error.inj h) ▸ ih hrec

theorem extract_go_error_eq {use_proj : Bool} {factor : String} :
    ∀ {pfs : List (Option QgsProjectionFactors)} {e : PErr},
      extract_go use_proj factor pfs = .error e → e = .attributeError := by
  intro pfs
  induction pfs with
  | nil => intro e h; exact Except.noConfusion h
  | cons pf rest ih =>
    intro e h
    cases pf with
    | none =>
      cases hrec : extract_go use_proj factor rest with
      | ok l =>
        simp only [extract_go, hrec] at h
        exact Except.noConfusion h
      | error e' =>
        simp only [extract_go, hrec] at h
        exact (Except.error.inj h).symm.trans (ih hrec)
    | some f =>
      cases hattr : (if use_proj then pyproj_factor_attr f factor
          else qgis_factor_attr f factor) with
      | none =>
        cases hrec : extract_go use_proj factor rest with
        | ok l =>
          simp only [extract_go, hattr, hrec] at h
          exact (Except.error.inj h).symm
        | error e' =>
          simp only [extract_go, hattr, hrec] at h
          exact (Except.error.inj h).symm
      | some q =>
        cases hrec : extract_go use_proj factor rest with
        | ok l =>
          simp only [extract_go, hattr, hrec] at h
          exact Except.noConfusion h
        | error e' =>
          simp only [extract_go, hattr, hrec] at h
          exact (Except.error.inj h).symm.trans (ih hrec)

theorem write_go_error_ne_geographic {use_pyproj : Bool}
    {factors : List (Option QgsProjectionFactors)} {cols rows : ℤ} :
    ∀ {names : List (String × String)} {e : PErr},
      write_go use_pyproj factors cols rows names = .error e → e ≠ .geographicCrs := by
  intro names
  induction names with
  | nil => intro e h; exact absurd h (fun h => Except.noConfusion h)
  | cons nm rest ih =>
    intro e h
    obtain ⟨factor, factor_text⟩ := nm
    cases hext : extract_factor use_pyproj factors factor with
    | error e' =>
      simp only [write_go, hext] at h
      have he : e' = .attributeError := extract_go_error_eq hext
      rw [← Except.error.inj h, he]
      exact fun hh => PErr.noConfusion hh
    | ok values =>
      by_cases hassert : cols * rows = (values.length : ℤ)
      · cases hrec : write_go use_pyproj factors cols rows rest with
        | ok bands =>
          simp only [write_go, hext, hassert, if_pos, hrec] at h
          exact Except.noConfusion h
        | error e' =>
          simp only [write_go, hext, hassert, if_pos, hrec] at h
          intro hh
          exact ih hrec ((Except.error.inj h) ▸ hh)
      · simp only [write_go, hext, if_neg hassert] at h
        rw [← Except.error.inj h]
        exact fun hh => PErr.noConfusion hh

theorem write_factors_to_tif_ne_geographic (use_pyproj : Bool)
    (factors : List (Option QgsProjectionFactors)) (cols rows : ℤ) :
    write_factors_to_tif use_pyproj factors cols rows ≠ .error .geographicCrs := by
  rw [write_factors_to_tif]
  cases hw : write_go use_pyproj factors cols rows
      (if use_pyproj then PROJECTION_FACTORS_PYPROJ else PROJECTION_FACTORS_QGIS) with
  | ok bands => exact fun h => Except.noConfusion h
  | error e =>
    intro h
    exact write_go_error_ne_geographic hw (Except.error.inj h)

/-- C2 (amended): the pipeline rejects exactly the reference system whose
authority id is the string `"EPSG:4326"`: `create_factors_tif` raises
`GeographicCrsError` precisely for it, and `run` pushes the critical message
and returns precisely for it. Other geographic (non-projected) systems, e.g.
`EPSG:4258`, are not rejected: see the counterexample. -/
theorem C2_geographic_rejection (use_pyproj : Bool)
    (tf : QgsPointXY → Except Unit QgsPointXY)
    (factorsOf get_factors : QgsPointXY → QgsProjectionFactors)
    (extent : QgsRectangle) (crs : QgsCoordinateReferenceSystem) (pixel_size : ℚ) :
    (create_factors_tif use_pyproj tf factorsOf get_factors extent crs pixel_size
        = .error .geographicCrs ↔ crs.authid = "EPSG:4326")
      ∧ (run use_pyproj tf factorsOf get_factors extent crs pixel_size
          = .rejectedNotProjected ↔ crs.authid = "EPSG:4326") := by
  by_cases hid : crs.authid = "EPSG:4326"
  · constructor
    · rw [create_factors_tif, if_pos hid]
      exact ⟨fun _ => hid, fun _ => rfl⟩
    · rw [run, if_pos hid]
      exact ⟨fun _ => hid, fun _ => rfl⟩
  · constructor
    · rw [create_factors_tif, if_neg hid]
      constructor
      · intro h
        exfalso
        revert h
        cases hcp : create_points extent pixel_size with
        | none =>
          intro h
          exact PErr.noConfusion (Except.error.inj h)
        | some triple =>
          obtain ⟨points, cols, rows⟩ := triple
          intro h
          simp only at h
          revert h
          cases hup : use_pyproj with
          | false =>
            simp only [Bool.false_eq_true, if_false]
            cases hg : gather_factors factorsOf
                (if crs ≠ gcs_crs then transform_points tf points else points.map some) with
            | error e =>
              intro h
              have : e = .zeroDivision := gather_go_error_eq hg
              rw [this] at h
              exact PErr.noConfusion (Except.error.inj h)
            | ok factors =>
              intro h
              exact write_factors_to_tif_ne_geographic false factors cols rows h
          | true =>
            simp only [if_true]
            cases hg : gather_factors_pyproj get_factors
                (if crs ≠ gcs_crs then transform_points tf points else points.map some) with
            | error e =>
              intro h
              have : e = .zeroDivision := gather_pyproj_go_error_eq hg
              rw [this] at h
              exact PErr.noConfusion (Except.error.inj h)
            | ok factors =>
              intro h
              exact write_factors_to_tif_ne_geographic true factors cols rows h
      · intro h
        exact absurd h hid
    · rw [run, if_neg hid]
      exact ⟨fun h => RunOutcome.noConfusion h, fun h => absurd h hid⟩

/-- C2 counterexample: `EPSG:4258` (ETRS89) is a geographic, non-projected
reference system, yet `create_factors_tif` does not raise
`GeographicCrsError` for it (on this small canvas it proceeds into the
pipeline and dies with the progress-bar `ZeroDivisionError` instead), and
`run` does not reject it either. -/
theorem C2_geographic_rejection_counterexample :
    (QgsCoordinateReferenceSystem.mk "EPSG:4258" true).isGeographic = true
      ∧ create_factors_tif false (fun p => Except.ok p)
          (fun _ => ⟨1, 1, 1, 1, 1, 1, 1, 1, 1, 1, 1, 1, true⟩)
          (fun _ => ⟨1, 1, 1, 1, 1, 1, 1, 1, 1, 1, 1, 1, true⟩)
          (QgsRectangle.mk 0 0 4 3) (QgsCoordinateReferenceSystem.mk "EPSG:4258" true) 1
        = .error .zeroDivision
      ∧ PErr.zeroDivision ≠ PErr.geographicCrs
      ∧ run false (fun p => Except.ok p)
          (fun _ => ⟨1, 1, 1, 1, 1, 1, 1, 1, 1, 1, 1, 1, true⟩)
          (fun _ => ⟨1, 1, 1, 1, 1, 1, 1, 1, 1, 1, 1, 1, true⟩)
          (QgsRectangle.mk 0 0 4 3) (QgsCoordinateReferenceSystem.mk "EPSG:4258" true) 1
        = .completed (.error .zeroDivision)
      ∧ RunOutcome.completed (.error .zeroDivision) ≠ RunOutcome.rejectedNotProjected := by
  have hgc : grid_cols (QgsRectangle.mk 0 0 4 3) 1 = 4 := by
    rw [grid_cols]
    exact frangeCount_eq_of_bounds _ _ _ 4 (by norm_num) (by norm_num)
  have hgr : grid_rows (QgsRectangle.mk 0 0 4 3) 1 = 3 := by
    rw [grid_rows]
    exact frangeCount_eq_of_bounds _ _ _ 3 (by norm_num) (by norm_num)
  have hlen : (create_points_list (QgsRectangle.mk 0 0 4 3) 1).length = 12 := by
    rw [create_points_list_length _ (by norm_num : (0:ℚ) < 1), hgc, hgr]
  have hcp : create_points (QgsRectangle.mk 0 0 4 3) 1
      = some (create_points_list (QgsRectangle.mk 0 0 4 3) 1, 4, 3) := by
    have hw : pyRound ((QgsRectangle.mk 0 0 4 3).width / 1) = 4 := by
      norm_num [pyRound, QgsRectangle.width]
    have hh : pyRound ((QgsRectangle.mk 0 0 4 3).height / 1) = 3 := by
      norm_num [pyRound, QgsRectangle.height]
    rw [create_points_some_iff, hw, hh, hlen, if_pos (by norm_num)]
  have hne : QgsCoordinateReferenceSystem.mk "EPSG:4258" true ≠ gcs_crs := by
    rw [gcs_crs]
    intro h
    exact absurd (congrArg QgsCoordinateReferenceSystem.authid h) (by decide)
  have htlen : (transform_points (fun p => Except.ok p)
      (create_points_list (QgsRectangle.mk 0 0 4 3) 1)).length = 12 := by
    rw [transform_points_eq_map, List.length_map, hlen]
  have htne : transform_points (fun p => Except.ok p)
      (create_points_list (QgsRectangle.mk 0 0 4 3) 1) ≠ [] := by
    intro h
    rw [h] at htlen
    exact absurd htlen (by norm_num)
  have hg : gather_factors (fun _ => (⟨1, 1, 1, 1, 1, 1, 1, 1, 1, 1, 1, 1, true⟩ :
      QgsProjectionFactors)) (transform_points (fun p => Except.ok p)
        (create_points_list (QgsRectangle.mk 0 0 4 3) 1)) = .error .zeroDivision := by
    rw [gather_factors, htlen]
    exact gather_go_raises _ htne
  have hcf : create_factors_tif false (fun p => Except.ok p)
      (fun _ => ⟨1, 1, 1, 1, 1, 1, 1, 1, 1, 1, 1, 1, true⟩)
      (fun _ => ⟨1, 1, 1, 1, 1, 1, 1, 1, 1, 1, 1, 1, true⟩)
      (QgsRectangle.mk 0 0 4 3) (QgsCoordinateReferenceSystem.mk "EPSG:4258" true) 1
      = .error .zeroDivision := by
    rw [create_factors_tif, if_neg (by decide)]
    simp only [hcp, if_pos hne, Bool.false_eq_true, if_false, ne_eq, hg]
  refine ⟨rfl, hcf, by decide, ?_, by decide⟩
  rw [run, if_neg (by decide), hcf]

end ProjFactorsRedux
